import Mathlib

/-!
Verification of the mcp_searxng repository: a thin integration layer exposing
a SearXNG metasearch HTTP API as MCP tools.  The definitions below are a
shallow embedding of the Python source:

  - `src/mcp_searxng/models.py`  : SearchResult / SearchResponse / SearchRequest
  - `src/mcp_searxng/client.py`  : SearXNGClient.search post-processing
  - `src/mcp_searxng/server.py`  : format_search_results and the three tools
  - `src/mcp_searxng/config.py`  : Settings validation

Network I/O is modelled by passing the outcome of the HTTP exchange (the
decoded JSON body, or a failure) as an explicit argument.  Pydantic's
`HttpUrl` grammar is an external library detail; it is abstracted as an
explicit predicate parameter `validUrl : String → Bool` wherever the code
calls it, so every theorem holds for any URL grammar.
-/

namespace McpSearxng

/-- One search hit after pydantic validation (models.py, `SearchResult`).
`url` is `Optional[HttpUrl]` (here the URL's string form), `content` is
normalised away from `None` at construction, so it is a plain `String`. -/
structure SearchResult where
  url : Option String
  title : String
  content : String
  published_date : Option String
  thumbnail : Option String
  engine : String
  engines : List String
  score : Float
  category : String

/-- Python's `str.strip()`: drop whitespace from both ends. -/
def pyStrip (s : String) : String :=
  String.mk (((s.data.dropWhile Char.isWhitespace).reverse.dropWhile Char.isWhitespace).reverse)

/-- models.py `SearchResult.is_valid`: `False` when `url is None`, otherwise
`bool(self.title) and bool(str(self.url).strip())` — non-empty title and a
non-blank URL string. -/
def SearchResult.is_valid (r : SearchResult) : Bool :=
  match r.url with
  | none => false
  | some u => !r.title.isEmpty && !(pyStrip u).isEmpty

/-- One query's result set after pydantic validation (models.py,
`SearchResponse`). -/
structure SearchResponse where
  query : String
  number_of_results : Int
  results : List SearchResult
  suggestions : List String
  corrections : List String
  unresponsive_engines : List String

/-- models.py `SearchResponse.get_valid_results`: keep only valid results,
in order. -/
def SearchResponse.get_valid_results (resp : SearchResponse) : List SearchResult :=
  resp.results.filter SearchResult.is_valid

/-- The post-parse steps of client.py `SearXNGClient.search` (lines 83-99):
filter to valid results, truncate to `max_results` when the filtered list is
longer, and write the list back into the response.  No other field is
touched. -/
def clientPostProcess (max_results : Nat) (resp : SearchResponse) : SearchResponse :=
  let valid := resp.get_valid_results
  let capped := if valid.length > max_results then valid.take max_results else valid
  { resp with results := capped }

/-- Shape of one element of the raw JSON `unresponsive_engines` array:
a plain string, an array (whose elements we take as strings, as in the
repository's data), or any other JSON shape. -/
inductive UEItem where
  | str (s : String)
  | arr (xs : List String)
  | other
deriving DecidableEq

/-- models.py `SearchResponse.validate_unresponsive_engines` body, given that
the field is a list (a non-list input returns `[]` before this loop runs):
keep strings, keep the first element of any list with `len(item) > 0`, drop
everything else, preserving order. -/
def validate_unresponsive_engines : List UEItem → List String
  | [] => []
  | UEItem.str s :: rest => s :: validate_unresponsive_engines rest
  | UEItem.arr (x :: _) :: rest => x :: validate_unresponsive_engines rest
  | UEItem.arr [] :: rest => validate_unresponsive_engines rest
  | UEItem.other :: rest => validate_unresponsive_engines rest

/-- models.py `SearchRequest`: outbound query parameters. -/
structure SearchRequest where
  q : String
  format : String
  categories : String
  pageno : Int
  language : Option String
  time_range : Option String
  safesearch : Int

/-- A query-string parameter value: string or integer. -/
inductive ParamVal where
  | s (v : String)
  | i (v : Int)
deriving DecidableEq

/-- models.py `SearchRequest.to_params`: the five base keys always, then
`language` and `time_range` appended only when Python-truthy (not `None`
and not the empty string). -/
def SearchRequest.to_params (r : SearchRequest) : List (String × ParamVal) :=
  let base : List (String × ParamVal) :=
    [("q", ParamVal.s r.q), ("format", ParamVal.s r.format),
     ("categories", ParamVal.s r.categories), ("pageno", ParamVal.i r.pageno),
     ("safesearch", ParamVal.i r.safesearch)]
  let withLang :=
    match r.language with
    | some l => if l = "" then base else base ++ [("language", ParamVal.s l)]
    | none => base
  match r.time_range with
  | some t => if t = "" then withLang else withLang ++ [("time_range", ParamVal.s t)]
  | none => withLang

/-- Dictionary read on the parameter list (first binding wins; keys are
unique by construction). -/
def getParam (k : String) : List (String × ParamVal) → Option ParamVal
  | [] => none
  | (k', v) :: rest => if k = k' then some v else getParam k rest

/-- Python's `sep.join(parts)` (server.py uses `"\n\n".join(parts)`). -/
def joinSep (sep : String) : List String → String
  | [] => ""
  | [x] => x
  | x :: y :: rest => x ++ sep ++ joinSep sep (y :: rest)

/-- The content snippet of one formatted result block (server.py line 37):
`(r.content[:L] + "...") if r.content and len(r.content) > L else (r.content or "")`.
Since `content` is a plain string after validation, truthiness is
non-emptiness and the else-branch is the content itself. -/
def render_snippet (max_content_len : Nat) (content : String) : String :=
  if !content.isEmpty && content.length > max_content_len then
    content.take max_content_len ++ "..."
  else content

/-- Python `str()` of the optional URL inside the f-string `f"   URL: {r.url}"`:
`None` prints as the string `None`. -/
def render_url : Option String → String
  | none => "None"
  | some u => u

/-- One numbered result block (server.py line 38). -/
def render_result (max_content_len : Nat) (i : Nat) (r : SearchResult) : String :=
  toString i ++ ". " ++ r.title ++ "\n   URL: " ++ render_url r.url ++ "\n   "
    ++ render_snippet max_content_len r.content

/-- The `parts` list of server.py `format_search_results` just before the
suggestions check: the header followed by one numbered block per result
(`enumerate(response.results, 1)`). -/
def format_body_parts (resp : SearchResponse) (max_content_len : Nat) : List String :=
  ("Results for: " ++ resp.query
      ++ "\n(Launch parallel subagents to webfetch top 3-5 URLs and synthesize relevant info)\n")
    :: (resp.results.enumFrom 1).map fun p => render_result max_content_len p.1 p.2

/-- server.py `format_search_results` (lines 31-43).  `max_content_len`
defaults to 150 at the call sites in the tool handlers. -/
def format_search_results (resp : SearchResponse) (max_content_len : Nat) : String :=
  if resp.results.isEmpty then
    "No results: " ++ resp.query
  else
    joinSep "\n\n" (format_body_parts resp max_content_len
      ++ (if resp.suggestions.isEmpty then []
          else ["\nRelated: " ++ joinSep ", " (resp.suggestions.take 3)]))

/-- server.py `searxng_search` (general web search tool): the body of the
`try` block returns the formatted response; `except Exception` returns
`f"Search failed: {e}"`.  The outcome of `client.search_text` is passed
explicitly. -/
def searxng_search (outcome : Except String SearchResponse) : String :=
  match outcome with
  | Except.ok resp => format_search_results resp 150
  | Except.error e => "Search failed: " ++ e

/-- server.py `searxng_search_images`. -/
def searxng_search_images (outcome : Except String SearchResponse) : String :=
  match outcome with
  | Except.ok resp => format_search_results resp 150
  | Except.error e => "Image search failed: " ++ e

/-- server.py `searxng_search_videos`. -/
def searxng_search_videos (outcome : Except String SearchResponse) : String :=
  match outcome with
  | Except.ok resp => format_search_results resp 150
  | Except.error e => "Video search failed: " ++ e

/-- config.py `Settings`: the validated fields.  (`searxng_url` is carried
as its string form; pydantic's `HttpUrl` grammar for it is outside the
claims about `Settings`.) -/
structure Settings where
  searxng_url : String
  searxng_timeout : Int
  searxng_max_results : Int
  mcp_transport : String
  mcp_port : Int
  log_level : String
  cache_enabled : Bool
deriving DecidableEq

/-- config.py `Settings` construction: pydantic enforces
`searxng_timeout ∈ [1,300]`, `searxng_max_results ∈ [1,100]`,
`mcp_port ∈ [1,65535]`, `mcp_transport ∈ Literal["stdio","sse"]`,
`log_level ∈ Literal["debug","info","warning","error"]`; any violation
raises a `ValidationError` (here `none`). -/
def mkSettings (url : String) (timeout max_results : Int) (transport : String)
    (port : Int) (log_level : String) (cache_enabled : Bool) : Option Settings :=
  if 1 ≤ timeout ∧ timeout ≤ 300 ∧ 1 ≤ max_results ∧ max_results ≤ 100
      ∧ 1 ≤ port ∧ port ≤ 65535
      ∧ (transport = "stdio" ∨ transport = "sse")
      ∧ (log_level = "debug" ∨ log_level = "info" ∨ log_level = "warning"
          ∨ log_level = "error") then
    some ⟨url, timeout, max_results, transport, port, log_level, cache_enabled⟩
  else none

/-- `Settings(searxng_timeout := t)` with every other field left at its
config.py default. -/
def mkSettingsTimeout (t : Int) : Option Settings :=
  mkSettings "https://searxng.pixelcrazed.com/" t 10 "stdio" 3000 "info" false

/-- One raw result object of the upstream JSON body, restricted to the
fields the model consumes.  `Option` marks fields that may be absent or
`null`; pydantic fills the documented defaults for absent ones. -/
structure RawResult where
  url : Option String
  title : String
  content : Option String
  published_date : Option String
  thumbnail : Option String
  engine : String
  engines : List String
  score : Float
  category : String

/-- The raw upstream JSON body, restricted to the fields the model
consumes. -/
structure RawResponse where
  query : String
  number_of_results : Int
  results : List RawResult
  suggestions : List String
  corrections : List String
  unresponsive_engines : List UEItem

/-- The `url` field's validation chain (models.py `validate_url`, then
pydantic's `HttpUrl` parse): empty string and `None` become `None`; any
other string must satisfy the URL grammar `validUrl`, else the whole model
construction fails. -/
def parseUrlField (validUrl : String → Bool) : Option String → Except String (Option String)
  | none => Except.ok none
  | some u =>
    if u = "" then Except.ok none
    else if validUrl u then Except.ok (some u)
    else Except.error ("invalid HTTP URL: " ++ u)

/-- Pydantic construction of one `SearchResult` from a raw object:
`validate_url` then `HttpUrl` on `url`, `validate_content` (`None` → `""`)
on `content`, all other fields copied. -/
def parseSearchResult (validUrl : String → Bool) (raw : RawResult) :
    Except String SearchResult :=
  match parseUrlField validUrl raw.url with
  | Except.error e => Except.error e
  | Except.ok u =>
    Except.ok ⟨u, raw.title, raw.content.getD "", raw.published_date,
      raw.thumbnail, raw.engine, raw.engines, raw.score, raw.category⟩

/-- Pydantic validation of the `results` array: every element must
validate, else the whole `SearchResponse` construction fails. -/
def parseResults (validUrl : String → Bool) : List RawResult → Except String (List SearchResult)
  | [] => Except.ok []
  | r :: rs =>
    match parseSearchResult validUrl r with
    | Except.error e => Except.error e
    | Except.ok x =>
      match parseResults validUrl rs with
      | Except.error e => Except.error e
      | Except.ok xs => Except.ok (x :: xs)

/-- Pydantic construction of a `SearchResponse` from the decoded JSON body
(`SearchResponse(**data)` in client.py line 83): validates every result and
normalises `unresponsive_engines`; the other fields are copied. -/
def parseSearchResponse (validUrl : String → Bool) (raw : RawResponse) :
    Except String SearchResponse :=
  match parseResults validUrl raw.results with
  | Except.error e => Except.error e
  | Except.ok rs =>
    Except.ok ⟨raw.query, raw.number_of_results, rs, raw.suggestions,
      raw.corrections, validate_unresponsive_engines raw.unresponsive_engines⟩

/-- The success path of client.py `SearXNGClient.search` from the decoded
JSON body onward: construct the `SearchResponse`, then filter and cap its
results. -/
def clientSearch (validUrl : String → Bool) (max_results : Nat) (raw : RawResponse) :
    Except String SearchResponse :=
  match parseSearchResponse validUrl raw with
  | Except.error e => Except.error e
  | Except.ok resp => Except.ok (clientPostProcess max_results resp)

/-! ### Concrete instances used by counterexamples and witnesses -/

/-- A concrete (finite) URL grammar used to instantiate the abstract
`validUrl` parameter in witnesses. -/
def urlOk (u : String) : Bool :=
  u = "http://a" || u = "http://b" || u = "http://c"

/-- A raw result with the given url and title and innocuous other fields. -/
def exRawResult (u t : String) : RawResult :=
  ⟨some u, t, some "", none, none, "g", [], 0.0, "general"⟩

/-- The `SearchResult` that `exRawResult u t` parses to. -/
def exResult (u t : String) : SearchResult :=
  ⟨some u, t, "", none, none, "g", [], 0.0, "general"⟩

/-- A raw body with three valid results. -/
def exRaw : RawResponse :=
  ⟨"q", 3, [exRawResult "http://a" "A", exRawResult "http://b" "B",
    exRawResult "http://c" "C"], [], [], []⟩

/-- What `clientSearch urlOk 2 exRaw` returns: the first two valid results. -/
def exResp : SearchResponse :=
  ⟨"q", 3, [exResult "http://a" "A", exResult "http://b" "B"], [], [], []⟩

/-- A request whose `language` is the (Python-falsy) empty string. -/
def exReqEmptyLang : SearchRequest := ⟨"hi", "json", "general", 1, some "", none, 1⟩

/-- A request with a non-empty `language` and no `time_range`. -/
def exReq : SearchRequest := ⟨"hi", "json", "general", 1, some "en", none, 1⟩

/-- A 200-character content string. -/
def longContent : String := String.mk (List.replicate 200 'x')

/-! ### C2 -/

/-- C2 counterexample: the claim says a one-element list (not being a
two-element-or-longer sequence) is an "other shape" and is dropped, but the
code's guard is `len(item) > 0`, so `[["solo"]]` normalizes to `["solo"]`,
not `[]`. -/
theorem ue_singleton_list_not_dropped :
    validate_unresponsive_engines [UEItem.arr ["solo"]] = ["solo"] ∧
    validate_unresponsive_engines [UEItem.arr ["solo"]] ≠ [] := by
  exact ⟨rfl, by decide⟩

/-- C2 (amended): normalization of `unresponsive_engines` keeps each plain
string as is, keeps only the first element of each list element of length
at least one (so also of one-element lists), drops empty lists and elements
of any other shape, and preserves order; the spec's example
`["bing", ["artic", "parsing error"]] ↦ ["bing", "artic"]` holds. -/
theorem validate_unresponsive_engines_characterization :
    validate_unresponsive_engines [] = [] ∧
    (∀ (s : String) (rest : List UEItem),
      validate_unresponsive_engines (UEItem.str s :: rest)
        = s :: validate_unresponsive_engines rest) ∧
    (∀ (x : String) (xs : List String) (rest : List UEItem),
      validate_unresponsive_engines (UEItem.arr (x :: xs) :: rest)
        = x :: validate_unresponsive_engines rest) ∧
    (∀ rest : List UEItem,
      validate_unresponsive_engines (UEItem.arr [] :: rest)
        = validate_unresponsive_engines rest) ∧
    (∀ rest : List UEItem,
      validate_unresponsive_engines (UEItem.other :: rest)
        = validate_unresponsive_engines rest) ∧
    validate_unresponsive_engines [UEItem.str "bing", UEItem.arr ["artic", "parsing error"]]
      = ["bing", "artic"] := by
  exact ⟨rfl, fun _ _ => rfl, fun _ _ _ => rfl, fun _ => rfl, fun _ => rfl, rfl⟩

/-! ### C3 -/

/-- C3 counterexample: the claim says every supplied `language` value is
included; but `to_params` tests Python truthiness, so the supplied empty
string is omitted from the parameters. -/
theorem to_params_empty_language_omitted :
    exReqEmptyLang.language = some "" ∧
    getParam "language" exReqEmptyLang.to_params = none := by
  decide

/-- C3 (amended): `to_params` always contains the five base keys `q`,
`format`, `categories`, `pageno`, `safesearch` bound to the request's
fields; `language` (resp. `time_range`) is absent when the field is `None`
or the empty string, and present with exactly the given value when the
field is a non-empty string. -/
theorem to_params_characterization (r : SearchRequest) :
    getParam "q" r.to_params = some (ParamVal.s r.q) ∧
    getParam "format" r.to_params = some (ParamVal.s r.format) ∧
    getParam "categories" r.to_params = some (ParamVal.s r.categories) ∧
    getParam "pageno" r.to_params = some (ParamVal.i r.pageno) ∧
    getParam "safesearch" r.to_params = some (ParamVal.i r.safesearch) ∧
    ((r.language = none ∨ r.language = some "") →
      getParam "language" r.to_params = none) ∧
    (∀ l, r.language = some l → l ≠ "" →
      getParam "language" r.to_params = some (ParamVal.s l)) ∧
    ((r.time_range = none ∨ r.time_range = some "") →
      getParam "time_range" r.to_params = none) ∧
    (∀ t, r.time_range = some t → t ≠ "" →
      getParam "time_range" r.to_params = some (ParamVal.s t)) := by
  obtain ⟨q, fmt, cats, pg, lang, tr, ss⟩ := r
  rcases lang with _ | l <;> rcases tr with _ | t
  case none.none =>
    simp [SearchRequest.to_params, getParam]
  case none.some =>
    by_cases ht : t = "" <;>
      simp [SearchRequest.to_params, getParam, ht]
  case some.none =>
    by_cases hl : l = "" <;>
      simp [SearchRequest.to_params, getParam, hl]
  case some.some =>
    by_cases hl : l = "" <;> by_cases ht : t = "" <;>
      simp [SearchRequest.to_params, getParam, hl, ht]

/-- C3 witness: the amended theorem applied to the concrete request
`exReq` (language "en" supplied, no time range). -/
theorem to_params_characterization_app :
    getParam "language" exReq.to_params = some (ParamVal.s "en") ∧
    getParam "time_range" exReq.to_params = none := by
  have h := to_params_characterization exReq
  exact ⟨h.2.2.2.2.2.2.1 "en" rfl (by decide), h.2.2.2.2.2.2.2.1 (Or.inl rfl)⟩

/-! ### C4 -/

/-- C4: the formatter's snippet rendering at truncation length `L`:
content longer than `L` becomes its first `L` characters followed by
`"..."`; content of length at most `L` is unchanged with no ellipsis. -/
theorem render_snippet_truncation (L : Nat) (c : String) :
    (c.length > L → render_snippet L c = c.take L ++ "...") ∧
    (c.length ≤ L → render_snippet L c = c) := by
  constructor
  · intro h
    have hne : c.isEmpty = false := by
      rw [Bool.eq_false_iff]
      intro he
      have : c = "" := (String.isEmpty_iff c).mp he
      subst this
      simp at h
    simp [render_snippet, hne, h]
  · intro h
    have : ¬ (c.length > L) := by omega
    simp [render_snippet, this]

set_option maxRecDepth 4000 in
/-- C4 witness: the theorem applied at length 150 to a 200-character
content (truncated with ellipsis) and to `"short"` (unchanged). -/
theorem render_snippet_truncation_app :
    render_snippet 150 longContent = longContent.take 150 ++ "..." ∧
    render_snippet 150 "short" = "short" := by
  exact ⟨(render_snippet_truncation 150 longContent).1 (by decide),
    (render_snippet_truncation 150 "short").2 (by decide)⟩

/-! ### C5 -/

/-- C5 counterexample: the failure string of the general search tool is
`"Search failed: <message>"`, which is not of the claimed form
`"<Kind> search failed: <message>"` for any kind string (its length is one
short of the shortest such string). -/
theorem general_failure_prefix_not_kinded :
    ¬ ∃ k : String, searxng_search (Except.error "boom") = k ++ " search failed: boom" := by
  rintro ⟨k, hk⟩
  have h := congrArg String.length hk
  rw [String.length_append] at h
  have h1 : (searxng_search (Except.error "boom")).length = 19 := by decide
  have h2 : (" search failed: boom" : String).length = 20 := by decide
  rw [h1, h2] at h
  omega

/-- C5 (amended): each tool entry point is a total function of the call's
outcome (no exception escapes); on success all three return the formatted
result text (at the default truncation length 150), and on failure the
general, image and video tools return `"Search failed: <message>"`,
`"Image search failed: <message>"` and `"Video search failed: <message>"`
respectively, each embedding the error message. -/
theorem tool_entry_points_outcome (outcome : Except String SearchResponse) :
    (∀ resp, outcome = Except.ok resp →
      searxng_search outcome = format_search_results resp 150 ∧
      searxng_search_images outcome = format_search_results resp 150 ∧
      searxng_search_videos outcome = format_search_results resp 150) ∧
    (∀ e, outcome = Except.error e →
      searxng_search outcome = "Search failed: " ++ e ∧
      searxng_search_images outcome = "Image search failed: " ++ e ∧
      searxng_search_videos outcome = "Video search failed: " ++ e) := by
  constructor
  · rintro resp rfl
    exact ⟨rfl, rfl, rfl⟩
  · rintro e rfl
    exact ⟨rfl, rfl, rfl⟩

/-- C5 witness: the amended theorem applied to the failure outcome
`"boom"`. -/
theorem tool_entry_points_outcome_app :
    searxng_search (Except.error "boom") = "Search failed: " ++ "boom" ∧
    searxng_search_images (Except.error "boom") = "Image search failed: " ++ "boom" ∧
    searxng_search_videos (Except.error "boom") = "Video search failed: " ++ "boom" := by
  exact (tool_entry_points_outcome (Except.error "boom")).2 "boom" rfl

/-! ### C6 -/

/-- C6: `Settings` construction fails (returns `none`, modelling pydantic's
`ValidationError`) whenever the timeout is outside [1,300], the max-results
cap outside [1,100], the port outside [1,65535], the transport not in
{stdio, sse}, or the log level not in {debug, info, warning, error}; in
particular `Settings(searxng_timeout=0)` fails and
`Settings(searxng_timeout=30)` succeeds (other fields at their defaults). -/
theorem settings_range_validation :
    (∀ (url : String) (t m : Int) (tr : String) (p : Int) (ll : String) (c : Bool),
      (t < 1 ∨ 300 < t ∨ m < 1 ∨ 100 < m ∨ p < 1 ∨ 65535 < p
        ∨ (tr ≠ "stdio" ∧ tr ≠ "sse")
        ∨ (ll ≠ "debug" ∧ ll ≠ "info" ∧ ll ≠ "warning" ∧ ll ≠ "error")) →
      mkSettings url t m tr p ll c = none) ∧
    mkSettingsTimeout 0 = none ∧
    (mkSettingsTimeout 30).isSome = true := by
  refine ⟨?_, by decide, by decide⟩
  intro url t m tr p ll c hbad
  have hcond : ¬ (1 ≤ t ∧ t ≤ 300 ∧ 1 ≤ m ∧ m ≤ 100 ∧ 1 ≤ p ∧ p ≤ 65535
      ∧ (tr = "stdio" ∨ tr = "sse")
      ∧ (ll = "debug" ∨ ll = "info" ∨ ll = "warning" ∨ ll = "error")) := by
    rintro ⟨h1, h2, h3, h4, h5, h6, h7, h8⟩
    rcases hbad with hb | hb | hb | hb | hb | hb | ⟨hb1, hb2⟩ | ⟨hb1, hb2, hb3, hb4⟩
    · omega
    · omega
    · omega
    · omega
    · omega
    · omega
    · rcases h7 with h | h <;> contradiction
    · rcases h8 with h | h | h | h <;> contradiction
  simp [mkSettings, hcond]

/-- C6 witness: the theorem applied at a concrete out-of-range timeout,
together with its two closed scenario conjuncts. -/
theorem settings_range_validation_app :
    mkSettings "https://searxng.pixelcrazed.com/" 0 10 "stdio" 3000 "info" false = none ∧
    mkSettingsTimeout 0 = none ∧
    (mkSettingsTimeout 30).isSome = true := by
  have h := settings_range_validation
  exact ⟨h.1 "https://searxng.pixelcrazed.com/" 0 10 "stdio" 3000 "info" false
    (Or.inl (by decide)), h.2.1, h.2.2⟩

/-! ### C7 -/

/-- C7: with an empty results list the formatter returns the single
"no results" line containing the literal query, whatever the truncation
length and the other fields. -/
theorem format_empty_results_message (resp : SearchResponse) (L : Nat)
    (h : resp.results = []) :
    format_search_results resp L = "No results: " ++ resp.query := by
  simp [format_search_results, h]

/-- C7 witness: the theorem applied to a response with empty results but
non-trivial other fields. -/
theorem format_empty_results_message_app :
    format_search_results ⟨"py", 7, [], ["s"], ["c"], ["u"]⟩ 150
      = "No results: " ++ "py" := by
  exact format_empty_results_message ⟨"py", 7, [], ["s"], ["c"], ["u"]⟩ 150 rfl

/-! ### C8 -/

/-- Appending one more part to a non-empty join adds one separator and the
part. -/
theorem joinSep_snoc (sep y : String) :
    ∀ xs : List String, xs ≠ [] → joinSep sep (xs ++ [y]) = joinSep sep xs ++ sep ++ y := by
  intro xs
  induction xs with
  | nil => intro h; exact absurd rfl h
  | cons x xt ih =>
    intro _
    cases xt with
    | nil => simp [joinSep]
    | cons z zs =>
      have h2 := ih (List.cons_ne_nil z zs)
      show x ++ sep ++ joinSep sep ((z :: zs) ++ [y])
        = x ++ sep ++ joinSep sep (z :: zs) ++ sep ++ y
      rw [h2]
      simp [String.append_assoc]

/-- A response used by the C8 witness: one result, four suggestions,
non-trivial corrections and unresponsive engines. -/
def exRespS : SearchResponse :=
  ⟨"py", 5, [exResult "http://a" "A"], ["s1", "s2", "s3", "s4"], ["c"], ["u"]⟩

/-- C8: for a response with non-empty results, a non-empty suggestions list
adds exactly one trailing part listing the first (at most 3) suggestions,
comma-separated; and the output never depends on `corrections` or
`unresponsive_engines`. -/
theorem format_suggestions_and_ignored_fields (resp : SearchResponse) (L : Nat) :
    (resp.results ≠ [] → resp.suggestions ≠ [] →
      format_search_results resp L
        = format_search_results { resp with suggestions := [] } L
          ++ "\n\n" ++ ("\nRelated: " ++ joinSep ", " (resp.suggestions.take 3))) ∧
    (∀ (c u : List String),
      format_search_results { resp with corrections := c, unresponsive_engines := u } L
        = format_search_results resp L) := by
  constructor
  · intro hres hsugg
    obtain ⟨q, n, res, sugg, cor, ue⟩ := resp
    cases res with
    | nil => exact absurd rfl hres
    | cons r rs =>
      cases sugg with
      | nil => exact absurd rfl hsugg
      | cons s ss =>
        show joinSep "\n\n" (format_body_parts ⟨q, n, r :: rs, s :: ss, cor, ue⟩ L
            ++ ["\nRelated: " ++ joinSep ", " ((s :: ss).take 3)])
          = joinSep "\n\n" (format_body_parts ⟨q, n, r :: rs, [], cor, ue⟩ L ++ [])
            ++ "\n\n" ++ ("\nRelated: " ++ joinSep ", " ((s :: ss).take 3))
        rw [List.append_nil]
        exact joinSep_snoc "\n\n" _ _ (List.cons_ne_nil _ _)
  · intro c u
    rfl

/-- C8 witness: the theorem applied to `exRespS`. -/
theorem format_suggestions_and_ignored_fields_app :
    format_search_results exRespS 150
      = format_search_results { exRespS with suggestions := [] } 150
        ++ "\n\n" ++ ("\nRelated: " ++ joinSep ", " (exRespS.suggestions.take 3)) ∧
    format_search_results { exRespS with corrections := [], unresponsive_engines := ["x"] } 150
      = format_search_results exRespS 150 := by
  have h := format_suggestions_and_ignored_fields exRespS 150
  exact ⟨h.1 (List.cons_ne_nil _ _) (List.cons_ne_nil _ _), h.2 [] ["x"]⟩

/-! ### C1 -/

/-- C1: every result returned by a successful client search is valid, and
when the valid results parsed from the upstream body outnumber the cap, the
returned list is exactly the first `max_results` of them, in upstream
order. -/
theorem client_search_valid_and_capped (validUrl : String → Bool) (cap : Nat)
    (raw : RawResponse) (resp : SearchResponse)
    (hok : clientSearch validUrl cap raw = Except.ok resp) :
    (∀ r ∈ resp.results, r.is_valid = true) ∧
    (∀ parsed, parseSearchResponse validUrl raw = Except.ok parsed →
      (parsed.results.filter SearchResult.is_valid).length > cap →
      resp.results = (parsed.results.filter SearchResult.is_valid).take cap) := by
  unfold clientSearch at hok
  cases hp : parseSearchResponse validUrl raw with
  | error e =>
    rw [hp] at hok
    simp at hok
  | ok parsed =>
    rw [hp] at hok
    simp at hok
    subst hok
    constructor
    · intro r hr
      have hr' : r ∈ parsed.results.filter SearchResult.is_valid := by
        by_cases h : (parsed.results.filter SearchResult.is_valid).length > cap
        · have heq : (clientPostProcess cap parsed).results
              = (parsed.results.filter SearchResult.is_valid).take cap := by
            simp [clientPostProcess, SearchResponse.get_valid_results, h]
          rw [heq] at hr
          exact List.mem_of_mem_take hr
        · have heq : (clientPostProcess cap parsed).results
              = parsed.results.filter SearchResult.is_valid := by
            simp [clientPostProcess, SearchResponse.get_valid_results, h]
          rw [heq] at hr
          exact hr
      exact (List.mem_filter.mp hr').2
    · intro parsed' hp' hlen
      have h' : parsed = parsed' := Except.ok.inj hp'
      subst h'
      simp [clientPostProcess, SearchResponse.get_valid_results, hlen]

/-- C1 witness: the theorem applied to a concrete body with three valid
results and cap 2. -/
theorem client_search_valid_and_capped_app :
    clientSearch urlOk 2 exRaw = Except.ok exResp ∧
    ((∀ r ∈ exResp.results, r.is_valid = true) ∧
      (∀ parsed, parseSearchResponse urlOk exRaw = Except.ok parsed →
        (parsed.results.filter SearchResult.is_valid).length > 2 →
        exResp.results = (parsed.results.filter SearchResult.is_valid).take 2)) := by
  exact ⟨rfl, client_search_valid_and_capped urlOk 2 exRaw exResp rfl⟩

/-! ### C9 -/

/-- If some member of the raw results array fails to validate, the whole
array fails to validate. -/
theorem parseResults_error_of_mem (f : String → Bool) (rs : List RawResult)
    (r : RawResult) (hmem : r ∈ rs)
    (hbad : ∃ e, parseSearchResult f r = Except.error e) :
    ∃ e, parseResults f rs = Except.error e := by
  induction rs with
  | nil => exact absurd hmem (List.not_mem_nil r)
  | cons a as ih =>
    obtain ⟨e, he⟩ := hbad
    rcases List.mem_cons.mp hmem with rfl | hmem'
    · exact ⟨e, by simp [parseResults, he]⟩
    · cases ha : parseSearchResult f a with
      | error e2 => exact ⟨e2, by simp [parseResults, ha]⟩
      | ok x =>
        obtain ⟨e3, he3⟩ := ih hmem'
        exact ⟨e3, by simp [parseResults, ha, he3]⟩

/-- A raw body with one result whose `url` is a non-empty string rejected
by the URL grammar. -/
def exBadRaw : RawResponse := ⟨"q", 1, [exRawResult "notaurl" "T"], [], [], []⟩

/-- C9: a raw result whose `url` is a non-empty string that the URL grammar
rejects makes the whole search call fail (the model construction errors);
only the empty-string url is locally normalized to absent instead. -/
theorem invalid_url_fails_search :
    (∀ (validUrl : String → Bool) (cap : Nat) (raw : RawResponse)
        (r : RawResult) (u : String),
      r ∈ raw.results → r.url = some u → u ≠ "" → validUrl u = false →
      ∃ e, clientSearch validUrl cap raw = Except.error e) ∧
    (∀ validUrl : String → Bool, parseUrlField validUrl (some "") = Except.ok none) := by
  constructor
  · intro f cap raw r u hmem hurl hne hf
    have hbad : ∃ e, parseSearchResult f r = Except.error e := by
      refine ⟨"invalid HTTP URL: " ++ u, ?_⟩
      simp [parseSearchResult, parseUrlField, hurl, hne, hf]
    obtain ⟨e, he⟩ := parseResults_error_of_mem f raw.results r hmem hbad
    exact ⟨e, by simp [clientSearch, parseSearchResponse, he]⟩
  · intro f
    simp [parseUrlField]

/-- C9 witness: the theorem applied to `exBadRaw` (url `"notaurl"`). -/
theorem invalid_url_fails_search_app :
    (∃ e, clientSearch urlOk 10 exBadRaw = Except.error e) ∧
    parseUrlField urlOk (some "") = Except.ok none := by
  have h := invalid_url_fails_search
  exact ⟨h.1 urlOk 10 exBadRaw (exRawResult "notaurl" "T") "notaurl"
    (List.mem_singleton_self _) rfl (by decide) rfl, h.2 urlOk⟩

/-! ### C10 -/

/-- C10: a successful client search returns the parsed response with only
its `results` field replaced (by the filtered, capped list); `query`,
`number_of_results`, `suggestions`, `corrections` and
`unresponsive_engines` are exactly as parsed, so `number_of_results` is
never reconciled with the length of `results`. -/
theorem client_search_frame (validUrl : String → Bool) (cap : Nat)
    (raw : RawResponse) (resp : SearchResponse)
    (hok : clientSearch validUrl cap raw = Except.ok resp) :
    ∃ parsed, parseSearchResponse validUrl raw = Except.ok parsed ∧
      resp.query = parsed.query ∧
      resp.number_of_results = parsed.number_of_results ∧
      resp.suggestions = parsed.suggestions ∧
      resp.corrections = parsed.corrections ∧
      resp.unresponsive_engines = parsed.unresponsive_engines ∧
      resp.results = (if (parsed.results.filter SearchResult.is_valid).length > cap
        then (parsed.results.filter SearchResult.is_valid).take cap
        else parsed.results.filter SearchResult.is_valid) := by
  unfold clientSearch at hok
  cases hp : parseSearchResponse validUrl raw with
  | error e =>
    rw [hp] at hok
    simp at hok
  | ok parsed =>
    rw [hp] at hok
    simp at hok
    subst hok
    exact ⟨parsed, rfl, rfl, rfl, rfl, rfl, rfl, rfl⟩

/-- C10 witness: the theorem applied to the concrete body `exRaw`. -/
theorem client_search_frame_app :
    clientSearch urlOk 2 exRaw = Except.ok exResp ∧
    ∃ parsed, parseSearchResponse urlOk exRaw = Except.ok parsed ∧
      exResp.query = parsed.query ∧
      exResp.number_of_results = parsed.number_of_results ∧
      exResp.suggestions = parsed.suggestions ∧
      exResp.corrections = parsed.corrections ∧
      exResp.unresponsive_engines = parsed.unresponsive_engines ∧
      exResp.results = (if (parsed.results.filter SearchResult.is_valid).length > 2
        then (parsed.results.filter SearchResult.is_valid).take 2
        else parsed.results.filter SearchResult.is_valid) := by
  exact ⟨rfl, client_search_frame urlOk 2 exRaw exResp rfl⟩

end McpSearxng
